import Mathlib

/-!
# dom-serializer: shallow embedding and verification

This file embeds the serializer of `src/index.ts` (dom-serializer) in Lean 4
and proves properties of it.  JavaScript machine-level details are modelled
explicitly:

* the runtime node discriminant (`node.type`) is an open `String`, matching
  the string values of the `domelementtype` enum at runtime;
* a `switch` fall-through returning `undefined` is `Option.none`, and the
  coercion `output += undefined` appends the string `"undefined"`;
* a thrown `TypeError` (property access on `undefined`) is `Except.error ()`;
* the in-place mutation of `element.name` is modelled by state passing: each
  rendering function returns the output string together with the updated node;
* the options object is only ever rebuilt by object spread in the source
  (`{ ...options, xmlMode: ... }`), never written through, so it is modelled
  as an immutable value.
-/

namespace DomSerializer

/-- Values of `options.xmlMode : boolean | "foreign" | undefined`.
`off` covers both `undefined` and `false`: every read in the source is either
a truthiness test (`!options.xmlMode`, `!!options.xmlMode`) or a comparison
`options.xmlMode === "foreign"`, under which the two are indistinguishable. -/
inductive XmlMode where
  | off
  | on
  | foreign
deriving DecidableEq, Repr

/-- Values of `options.encodeEntities : boolean | "utf8"` (when present). -/
inductive EncodeSetting where
  | fls
  | tru
  | utf8
deriving DecidableEq, Repr

/-- The `DomSerializerOptions` record of the source.  `none` models an
`undefined` (absent) option. -/
structure DomSerializerOptions where
  emptyAttrs : Option Bool := none
  selfClosingTags : Option Bool := none
  xmlMode : XmlMode := .off
  encodeEntities : Option EncodeSetting := none
  decodeEntities : Option Bool := none
deriving DecidableEq, Repr

/-- A runtime DOM node (domhandler).  `type` is the open runtime discriminant
string; `name` is the element name (mutable in the source); `attribs` is the
ordered attribute mapping (`none` = the `attribs` property is `undefined`,
attribute values of `none` model absent values); `data` is the payload of
text/comment/directive nodes (`none` = the property is `undefined`, as on
elements); `children` is the ordered child list. -/
inductive DNode where
  | mk (type : String) (name : String)
      (attribs : Option (List (String × Option String)))
      (data : Option String) (children : List DNode)
deriving Repr

/-- The runtime discriminant of a node. -/
def DNode.type : DNode → String
  | .mk t _ _ _ _ => t

/-- The element name of a node. -/
def DNode.name : DNode → String
  | .mk _ n _ _ _ => n

/-- The attribute mapping of a node. -/
def DNode.attribs : DNode → Option (List (String × Option String))
  | .mk _ _ a _ _ => a

/-- The data payload of a node. -/
def DNode.data : DNode → Option String
  | .mk _ _ _ d _ => d

/-- The children of a node. -/
def DNode.children : DNode → List DNode
  | .mk _ _ _ _ c => c

/-- Replace the children of a node (the result of the in-place update of a
child array). -/
def DNode.withChildren : DNode → List DNode → DNode
  | .mk t n a d _, cs => .mk t n a d cs

theorem DNode.sizeOf_children_lt (n : DNode) : sizeOf n.children < sizeOf n := by
  cases n
  simp [DNode.children]

/-- JavaScript truthiness of an optional boolean option
(`undefined` and `false` are falsy). -/
def truthy : Option Bool → Bool
  | some true => true
  | _ => false

/-- The `unencodedElements` set of the source: elements whose text content is
emitted without entity encoding in non-XML mode. -/
def unencodedElements : List String :=
  ["style", "script", "xmp", "iframe", "noembed", "noframes", "plaintext",
   "noscript"]

/-- The `singleTag` set of the source: HTML void elements. -/
def singleTag : List String :=
  ["area", "base", "basefont", "br", "col", "command", "embed", "frame", "hr",
   "img", "input", "isindex", "keygen", "link", "meta", "param", "source",
   "track", "wbr"]

/-- The `foreignModeIntegrationPoints` set of the source. -/
def foreignModeIntegrationPoints : List String :=
  ["mi", "mo", "mn", "ms", "mtext", "annotation-xml", "foreignObject", "desc",
   "title"]

/-- The `foreignElements` set of the source. -/
def foreignElements : List String := ["svg", "math"]

/-- `Map.get` on an association table (`none` = key absent). -/
def tableLookup (table : List (String × String)) (key : String) :
    Option String :=
  match table with
  | [] => none
  | p :: rest => if p.1 = key then some p.2 else tableLookup rest key

/-- Modelled from the spec: the `elementNames` table of `foreign-names.js`
(a file of this repository that is not available here).  Per the spec it is a
static, fixed mapping from lower-cased parser tokens to canonical mixed-case
SVG/MathML element names, e.g. `radialgradient` becomes `radialGradient`.
A representative selection is used; every key is fully lower-cased and every
value is mixed-case (hence no value is a key). -/
def elementNames : List (String × String) :=
  [("altglyph", "altGlyph"),
   ("animatecolor", "animateColor"),
   ("clippath", "clipPath"),
   ("feblend", "feBlend"),
   ("foreignobject", "foreignObject"),
   ("lineargradient", "linearGradient"),
   ("radialgradient", "radialGradient"),
   ("textpath", "textPath")]

/-- Modelled from the spec: the `attributeNames` table of `foreign-names.js`
(a file of this repository that is not available here).  Per the spec it is a
static, fixed mapping from lower-cased parser tokens to canonical mixed-case
SVG/MathML attribute names, covering namespaced names such as `xlink:href`.
A representative selection is used; every key is fully lower-cased and every
value is mixed-case (hence no value is a key). -/
def attributeNames : List (String × String) :=
  [("attributename", "attributeName"),
   ("basefrequency", "baseFrequency"),
   ("definitionurl", "definitionURL"),
   ("viewbox", "viewBox"),
   ("xlink:arcrole", "xlink:arcRole")]

/-- `elementNames.get(name) ?? name`: the element-name fix-up applied when the
serializer is in foreign mode. -/
def renameElement (name : String) : String :=
  (tableLookup elementNames name).getD name

/-- `attributeNames.get(key) ?? key`: the attribute-name fix-up applied when
the serializer is in foreign mode. -/
def renameAttribute (key : String) : String :=
  (tableLookup attributeNames key).getD key

/-- `replaceQuotes` of the source: replace every `"` by `&quot;`
(the encoder used when entity encoding is disabled). -/
def replaceQuotes (value : String) : String :=
  String.join (value.data.map fun c =>
    if c = '"' then "&quot;" else String.singleton c)

/-- Modelled from the spec: the `encodeXML` function of the external `entities`
package — full XML-entity encoding, escaping the reserved markup characters
and all non-ASCII characters (as hexadecimal character references). -/
def encodeXML (s : String) : String :=
  String.join (s.data.map fun c =>
    if c = '&' then "&amp;"
    else if c = '<' then "&lt;"
    else if c = '>' then "&gt;"
    else if c = '"' then "&quot;"
    else if c = '\'' then "&apos;"
    else if 128 ≤ c.toNat then
      "&#x" ++ String.mk (Nat.toDigits 16 c.toNat) ++ ";"
    else String.singleton c)

/-- Modelled from the spec: the `escapeAttribute` function of the external
`entities` package — HTML-attribute-safe escaping of `&` and `"`, leaving
non-ASCII text unescaped. -/
def escapeAttribute (s : String) : String :=
  String.join (s.data.map fun c =>
    if c = '&' then "&amp;"
    else if c = '"' then "&quot;"
    else String.singleton c)

/-- Modelled from the spec: the `escapeText` function of the external
`entities` package — HTML-text escaping of `&`, `<` and `>`, leaving
non-ASCII text unescaped. -/
def escapeText (s : String) : String :=
  String.join (s.data.map fun c =>
    if c = '&' then "&amp;"
    else if c = '<' then "&lt;"
    else if c = '>' then "&gt;"
    else String.singleton c)

/-- `(options.encodeEntities ?? options.decodeEntities) === false`:
entity encoding resolves to disabled. -/
def entityDisabled (options : DomSerializerOptions) : Bool :=
  match options.encodeEntities with
  | some .fls => true
  | some _ => false
  | none => options.decodeEntities = some false

/-- The `const encode = ...` selection of `formatAttributes`
(src/index.ts lines 89–94). -/
def selectEncode (options : DomSerializerOptions) : String → String :=
  if entityDisabled options then replaceQuotes
  else if options.xmlMode ≠ .off ∨ options.encodeEntities ≠ some .utf8 then
    encodeXML
  else escapeAttribute

/-- The key actually emitted for an attribute entry: fixed up through the
foreign-attribute-name table exactly when the mode is `"foreign"`
(src/index.ts lines 100–103). -/
def attribKey (options : DomSerializerOptions) (key : String) : String :=
  if options.xmlMode = .foreign then renameAttribute key else key

/-- The body of the `.map` callback of `formatAttributes`
(src/index.ts lines 97–110), formatting a single attribute entry with the
encoder selected once by the enclosing call. -/
def formatOneAttribute (options : DomSerializerOptions)
    (encode : String → String) (entry : String × Option String) : String :=
  let value := entry.2.getD ""
  let key := attribKey options entry.1
  if ¬ truthy options.emptyAttrs ∧ options.xmlMode = .off ∧ value = "" then
    key
  else
    key ++ "=\"" ++ encode value ++ "\""

/-- `formatAttributes` of the source (lines 83–112).  Returns `none` when the
`attribs` property is `undefined` (the early `return`); otherwise the encoder
is selected once (the `const encode` of lines 89–94) and the entries are
joined with single spaces. -/
def formatAttributes (attributes : Option (List (String × Option String)))
    (options : DomSerializerOptions) : Option String :=
  match attributes with
  | none => none
  | some attrs =>
    let encode := selectEncode options
    some (String.intercalate " "
      (attrs.map (formatOneAttribute options encode)))

/-- `<${element.name}` plus the attribute string when truthy
(src/index.ts lines 222–227).  `name` is the (already fixed-up) element
name. -/
def openTag (name : String)
    (attributes : Option (List (String × Option String)))
    (options : DomSerializerOptions) : String :=
  let tag := "<" ++ name
  match formatAttributes attributes options with
  | some s => if s = "" then tag else tag ++ " " ++ s
  | none => tag

/-- The element name actually used by `renderTag`: in foreign mode the source
first mutates `element.name` to its canonical spelling (line 209). -/
def renamedName (options : DomSerializerOptions) (name : String) : String :=
  if options.xmlMode = .foreign then renameElement name else name

/-- `element.parent && set.has((element.parent as Element).name)`: the parent
reference is set and the parent's name is in the given set. -/
def parentNameIn (parent : Option String) (set : List String) : Bool :=
  match parent with
  | some p => p ∈ set
  | none => false

/-- The first override of `renderTag` (src/index.ts lines 210–216): in
foreign mode, exit foreign mode when the parent's name is an integration
point (`options = { ...options, xmlMode: false }`). -/
def exitForeignAtIntegrationPoint (parent : Option String)
    (options : DomSerializerOptions) : DomSerializerOptions :=
  if options.xmlMode = .foreign ∧
      parentNameIn parent foreignModeIntegrationPoints then
    { options with xmlMode := .off }
  else options

/-- The second override of `renderTag` (src/index.ts lines 218–220): when
not in any XML mode and the element's (current) name is `svg`/`math`, enter
foreign mode (`options = { ...options, xmlMode: "foreign" }`). -/
def enterForeignAtForeignElement (name : String)
    (options : DomSerializerOptions) : DomSerializerOptions :=
  if options.xmlMode = .off ∧ name ∈ foreignElements then
    { options with xmlMode := .foreign }
  else options

/-- The configuration override of `renderTag` (src/index.ts lines 207–220):
in foreign mode, clear foreign mode at integration points; then, when not in
any XML mode, enter foreign mode at `svg`/`math` elements.  `name` is the
element's stored (pre-fix-up) name — the second check reads the element's
current name, which by then is `renamedName options name`. -/
def deriveOptions (parent : Option String) (name : String)
    (options : DomSerializerOptions) : DomSerializerOptions :=
  enterForeignAtForeignElement (renamedName options name)
    (exitForeignAtIntegrationPoint parent options)

/-- `renderDirective` of the source: `<` + data + `>` (an `undefined` data
property would be stringified by the template literal). -/
def renderDirective (element : DNode) : String :=
  "<" ++ element.data.getD "undefined" ++ ">"

/-- `renderComment` of the source: `<!--` + data + `-->`. -/
def renderComment (element : DNode) : String :=
  "<!--" ++ element.data.getD "undefined" ++ "-->"

/-- `renderCdata` of the source: `` `<![CDATA[${(element.children[0] as
Text).data}]]>` ``.  On a childless node, `element.children[0]` is
`undefined` and the `.data` access throws a `TypeError`, modelled as
`Except.error ()`. -/
def renderCdata (element : DNode) : Except Unit String :=
  match element.children with
  | [] => .error ()
  | c :: _ => .ok ("<![CDATA[" ++ c.data.getD "undefined" ++ "]]>")

/-- `renderText` of the source (lines 257–276).  `parent` is the name of the
parent element when the parent reference is set. -/
def renderText (parent : Option String) (element : DNode)
    (options : DomSerializerOptions) : String :=
  let data := element.data.getD ""
  if entityDisabled options = false ∧
      ¬ (options.xmlMode = .off ∧
          parentNameIn parent unencodedElements = true) then
    if options.xmlMode ≠ .off ∨ options.encodeEntities ≠ some .utf8 then
      encodeXML data
    else escapeText data
  else data

mutual

/-- The self-closing condition of `renderTag` (src/index.ts lines 231–235),
for a childless element: in XML or foreign mode, self-close unless the user
explicitly turned self-closing tags off (`!== false`); in plain HTML mode,
self-close only when the user asked for self-closing tags (truthiness) and
the name is a void element. -/
def selfClosingCondition (options : DomSerializerOptions)
    (name : String) : Bool :=
  match options.xmlMode with
  | .off => truthy options.selfClosingTags && name ∈ singleTag
  | _ => options.selfClosingTags ≠ some false

/-- `renderTag` of the source (lines 205–251).  Returns the rendered string
and the updated element (the source mutates `element.name` in place, and the
children may be updated by the recursive call).  `parent` is the name of the
parent element when the parent reference is set; children are rendered with
this element's current (post-fix-up) name as their parent name, exactly as
the in-place mutation makes the source do. -/
def renderTag (parent : Option String) (element : DNode)
    (options0 : DomSerializerOptions) : Except Unit (String × DNode) :=
  match element with
  | .mk ty nm attribs dat children =>
    let name := renamedName options0 nm
    let options := deriveOptions parent nm options0
    let tag := openTag name attribs options
    if children.length = 0 ∧ selfClosingCondition options name = true then
      .ok ((if options.xmlMode = .off then tag ++ " " else tag) ++ "/>",
        .mk ty name attribs dat children)
    else
      match
        (if 0 < children.length then render (some name) children options
         else .ok ("", children)) with
      | .error e => .error e
      | .ok (cs, children') =>
        let tag2 := tag ++ ">" ++ cs
        let tag3 :=
          if options.xmlMode ≠ .off ∨ name ∉ singleTag then
            tag2 ++ "</" ++ name ++ ">"
          else tag2
        .ok (tag3, .mk ty name attribs dat children')
termination_by (sizeOf element, 0)

/-- `renderNode` of the source (lines 164–189): dispatch on the runtime
discriminant.  The `switch` has no default case; a discriminant outside the
nine handled values falls through, returning JavaScript `undefined`, modelled
as `Option.none` in the result.  A child of a `Root` node sees a parent whose
`name` property is `undefined`; since `undefined` is in none of the name
sets, this is modelled by the parent name `""` (also in none of the sets). -/
def renderNode (parent : Option String) (node : DNode)
    (options : DomSerializerOptions) : Except Unit (Option String × DNode) :=
  match node.type with
  | "root" =>
    match render (some "") node.children options with
    | .error e => .error e
    | .ok (s, cs) => .ok (some s, node.withChildren cs)
  | "doctype" => .ok (some (renderDirective node), node)
  | "directive" => .ok (some (renderDirective node), node)
  | "comment" => .ok (some (renderComment node), node)
  | "cdata" =>
    match renderCdata node with
    | .error e => .error e
    | .ok s => .ok (some s, node)
  | "script" =>
    match renderTag parent node options with
    | .error e => .error e
    | .ok (s, n') => .ok (some s, n')
  | "style" =>
    match renderTag parent node options with
    | .error e => .error e
    | .ok (s, n') => .ok (some s, n')
  | "tag" =>
    match renderTag parent node options with
    | .error e => .error e
    | .ok (s, n') => .ok (some s, n')
  | "text" => .ok (some (renderText parent node options), node)
  | _ => .ok (none, node)
termination_by (sizeOf node, 1)
decreasing_by
  all_goals first
    | exact Prod.Lex.left _ _ (DNode.sizeOf_children_lt node)
    | exact Prod.Lex.right _ (by omega)

/-- `render` of the source (lines 146–160), on a node array: concatenate the
renders of the nodes in order.  `output += renderNode(...)` coerces an
`undefined` return (unhandled node kind) to the string `"undefined"`; a
thrown `TypeError` propagates.  All nodes of the array share the parent name
`parent` (in every recursive call of the source the array is a `children`
array, whose members share one parent). -/
def render (parent : Option String) (nodes : List DNode)
    (options : DomSerializerOptions) : Except Unit (String × List DNode) :=
  match nodes with
  | [] => .ok ("", [])
  | n :: rest =>
    match renderNode parent n options with
    | .error e => .error e
    | .ok (s, n') =>
      match render parent rest options with
      | .error e => .error e
      | .ok (s2, rest') => .ok (s.getD "undefined" ++ s2, n' :: rest')
termination_by (sizeOf nodes, 2)

end

mutual

/-- Erase every `name` field of a tree.  Two trees are equal under
`stripNames` exactly when they agree on everything except element names —
the one field the serializer may rewrite in place. -/
def stripNames : DNode → DNode
  | .mk t _ a d c => .mk t "" a d (stripNamesList c)

/-- `stripNames` mapped over a child list. -/
def stripNamesList : List DNode → List DNode
  | [] => []
  | n :: rest => stripNames n :: stripNamesList rest

end

theorem stripNamesList_length (ns : List DNode) :
    (stripNamesList ns).length = ns.length := by
  induction ns with
  | nil => rfl
  | cons n rest ih => simp [stripNamesList, ih]

theorem tableLookup_mem {t : List (String × String)} {k v : String}
    (h : tableLookup t k = some v) : (k, v) ∈ t := by
  induction t with
  | nil => simp [tableLookup] at h
  | cons p rest ih =>
    rw [tableLookup] at h
    by_cases hp : p.1 = k
    · simp [hp] at h
      have : (k, v) = p := by
        cases p
        simp_all
      rw [this]
      exact List.mem_cons_self _ _
    · simp [hp] at h
      exact List.mem_cons_of_mem _ (ih h)

theorem elementNames_value_not_key :
    ∀ p ∈ elementNames, tableLookup elementNames p.2 = none := by
  decide

/-- Applying the foreign element-name fix-up twice is the same as applying it
once: the table's canonical (mixed-case) values are not themselves keys. -/
theorem renameElement_idem (s : String) :
    renameElement (renameElement s) = renameElement s := by
  unfold renameElement
  cases h : tableLookup elementNames s with
  | none => simp [h]
  | some v =>
    simp [h]
    have hv := elementNames_value_not_key _ (tableLookup_mem h)
    simp at hv
    simp [hv]

theorem renamedName_idem (o : DomSerializerOptions) (nm : String) :
    renamedName o (renamedName o nm) = renamedName o nm := by
  unfold renamedName
  by_cases h : o.xmlMode = .foreign
  · simp [h, renameElement_idem]
  · simp [h]

theorem deriveOptions_renamed (parent : Option String) (nm : String)
    (o : DomSerializerOptions) :
    deriveOptions parent (renamedName o nm) o = deriveOptions parent nm o := by
  unfold deriveOptions
  rw [renamedName_idem]

mutual

theorem renderTag_names {parent : Option String} {e : DNode}
    {o : DomSerializerOptions} {s : String} {n' : DNode}
    (h : renderTag parent e o = .ok (s, n')) : stripNames n' = stripNames e := by
  cases e with
  | mk ty nm attribs dat children =>
    simp only [renderTag] at h
    split at h
    · simp at h
      rw [← h.2]
      simp [stripNames]
    · split at h
      · exact absurd h (by simp)
      · rename_i cres cs children' heq
        simp at h
        rw [← h.2]
        simp [stripNames]
        split at heq
        · exact render_names heq
        · simp at heq
          rw [heq.2]
termination_by (sizeOf e, 0)

theorem renderNode_names {parent : Option String} {n : DNode}
    {o : DomSerializerOptions} {s : Option String} {n' : DNode}
    (h : renderNode parent n o = .ok (s, n')) : stripNames n' = stripNames n := by
  simp only [renderNode] at h
  split at h
  · split at h
    · exact absurd h (by simp)
    · rename_i heq
      simp at h
      rw [← h.2]
      cases n with
      | mk ty nm attribs dat children =>
        simp [DNode.withChildren, stripNames]
        exact render_names heq
  · simp at h
    rw [← h.2]
  · simp at h
    rw [← h.2]
  · simp at h
    rw [← h.2]
  · split at h
    · exact absurd h (by simp)
    · simp at h
      rw [← h.2]
  · split at h
    · exact absurd h (by simp)
    · rename_i heq
      simp at h
      rw [← h.2]
      exact renderTag_names heq
  · split at h
    · exact absurd h (by simp)
    · rename_i heq
      simp at h
      rw [← h.2]
      exact renderTag_names heq
  · split at h
    · exact absurd h (by simp)
    · rename_i heq
      simp at h
      rw [← h.2]
      exact renderTag_names heq
  · simp at h
    rw [← h.2]
  · simp at h
    rw [← h.2]
termination_by (sizeOf n, 1)

theorem render_names {parent : Option String} {ns : List DNode}
    {o : DomSerializerOptions} {s : String} {ns' : List DNode}
    (h : render parent ns o = .ok (s, ns')) :
    stripNamesList ns' = stripNamesList ns := by
  cases ns with
  | nil =>
    simp only [render] at h
    simp at h
    rw [← h.2]
  | cons n rest =>
    simp only [render] at h
    split at h
    · exact absurd h (by simp)
    · rename_i heq1
      split at h
      · exact absurd h (by simp)
      · rename_i heq2
        simp at h
        rw [← h.2]
        simp [stripNamesList]
        exact ⟨renderNode_names heq1, render_names heq2⟩
termination_by (sizeOf ns, 2)

end

theorem render_length {parent : Option String} {ns : List DNode}
    {o : DomSerializerOptions} {s : String} {ns' : List DNode}
    (h : render parent ns o = .ok (s, ns')) : ns'.length = ns.length := by
  have hn := render_names h
  have h1 := stripNamesList_length ns'
  have h2 := stripNamesList_length ns
  rw [hn] at h1
  omega

theorem DNode.type_stripNames (n : DNode) : (stripNames n).type = n.type := by
  cases n
  rfl

theorem renderTag_type {parent : Option String} {e : DNode}
    {o : DomSerializerOptions} {s : String} {n' : DNode}
    (h : renderTag parent e o = .ok (s, n')) : n'.type = e.type := by
  have hn := renderTag_names h
  have h1 := DNode.type_stripNames n'
  rw [hn, DNode.type_stripNames] at h1
  exact h1.symm

theorem DNode.withChildren_type (n : DNode) (cs : List DNode) :
    (n.withChildren cs).type = n.type := by
  cases n
  rfl

theorem DNode.withChildren_children (n : DNode) (cs : List DNode) :
    (n.withChildren cs).children = cs := by
  cases n
  rfl

theorem DNode.withChildren_withChildren (n : DNode) (cs cs2 : List DNode) :
    (n.withChildren cs).withChildren cs2 = n.withChildren cs2 := by
  cases n
  rfl

theorem render_nil (parent : Option String) (o : DomSerializerOptions) :
    render parent [] o = .ok ("", []) := by
  simp only [render]

theorem render_cons (parent : Option String) (n : DNode) (rest : List DNode)
    (o : DomSerializerOptions) :
    render parent (n :: rest) o =
      match renderNode parent n o with
      | .error e => .error e
      | .ok (s, n') =>
        match render parent rest o with
        | .error e => .error e
        | .ok (s2, rest') => .ok (s.getD "undefined" ++ s2, n' :: rest') := by
  simp only [render]

/-- Unfolding equation of `renderTag` on an explicit node. -/
theorem renderTag_mk (parent : Option String) (ty nm : String)
    (attribs : Option (List (String × Option String))) (dat : Option String)
    (children : List DNode) (o0 : DomSerializerOptions) :
    renderTag parent (.mk ty nm attribs dat children) o0 =
      (if children.length = 0 ∧
          selfClosingCondition (deriveOptions parent nm o0)
            (renamedName o0 nm) = true then
        .ok ((if (deriveOptions parent nm o0).xmlMode = .off then
              openTag (renamedName o0 nm) attribs (deriveOptions parent nm o0)
                ++ " "
            else
              openTag (renamedName o0 nm) attribs
                (deriveOptions parent nm o0)) ++ "/>",
          .mk ty (renamedName o0 nm) attribs dat children)
      else
        match
          (if 0 < children.length then
            render (some (renamedName o0 nm)) children
              (deriveOptions parent nm o0)
          else .ok ("", children)) with
        | .error e => .error e
        | .ok (cs, children') =>
          .ok ((if (deriveOptions parent nm o0).xmlMode ≠ .off ∨
                renamedName o0 nm ∉ singleTag then
              openTag (renamedName o0 nm) attribs (deriveOptions parent nm o0)
                ++ ">" ++ cs ++ "</" ++ renamedName o0 nm ++ ">"
            else
              openTag (renamedName o0 nm) attribs (deriveOptions parent nm o0)
                ++ ">" ++ cs),
            .mk ty (renamedName o0 nm) attribs dat children')) := by
  rw [renderTag.eq_def]

theorem renderNode_case_root (parent : Option String) {n : DNode}
    (o : DomSerializerOptions) (h : n.type = "root") :
    renderNode parent n o =
      match render (some "") n.children o with
      | .error e => .error e
      | .ok (s, cs) => .ok (some s, n.withChildren cs) := by
  rw [renderNode.eq_def, h]
  rfl

theorem renderNode_case_doctype (parent : Option String) {n : DNode}
    (o : DomSerializerOptions) (h : n.type = "doctype") :
    renderNode parent n o = .ok (some (renderDirective n), n) := by
  rw [renderNode.eq_def, h]
  rfl

theorem renderNode_case_directive (parent : Option String) {n : DNode}
    (o : DomSerializerOptions) (h : n.type = "directive") :
    renderNode parent n o = .ok (some (renderDirective n), n) := by
  rw [renderNode.eq_def, h]
  rfl

theorem renderNode_case_comment (parent : Option String) {n : DNode}
    (o : DomSerializerOptions) (h : n.type = "comment") :
    renderNode parent n o = .ok (some (renderComment n), n) := by
  rw [renderNode.eq_def, h]
  rfl

theorem renderNode_case_cdata (parent : Option String) {n : DNode}
    (o : DomSerializerOptions) (h : n.type = "cdata") :
    renderNode parent n o =
      match renderCdata n with
      | .error e => .error e
      | .ok s => .ok (some s, n) := by
  rw [renderNode.eq_def, h]
  rfl

theorem renderNode_case_script (parent : Option String) {n : DNode}
    (o : DomSerializerOptions) (h : n.type = "script") :
    renderNode parent n o =
      match renderTag parent n o with
      | .error e => .error e
      | .ok (s, n') => .ok (some s, n') := by
  rw [renderNode.eq_def, h]
  rfl

theorem renderNode_case_style (parent : Option String) {n : DNode}
    (o : DomSerializerOptions) (h : n.type = "style") :
    renderNode parent n o =
      match renderTag parent n o with
      | .error e => .error e
      | .ok (s, n') => .ok (some s, n') := by
  rw [renderNode.eq_def, h]
  rfl

theorem renderNode_case_tag (parent : Option String) {n : DNode}
    (o : DomSerializerOptions) (h : n.type = "tag") :
    renderNode parent n o =
      match renderTag parent n o with
      | .error e => .error e
      | .ok (s, n') => .ok (some s, n') := by
  rw [renderNode.eq_def, h]
  rfl

theorem renderNode_case_text (parent : Option String) {n : DNode}
    (o : DomSerializerOptions) (h : n.type = "text") :
    renderNode parent n o = .ok (some (renderText parent n o), n) := by
  rw [renderNode.eq_def, h]
  rfl

/-- The list of runtime node kinds that the dispatch `switch` of `renderNode`
handles (the nine members of the `domelementtype` enum). -/
def handledNodeKinds : List String :=
  ["root", "doctype", "directive", "comment", "cdata", "script", "style",
   "tag", "text"]

theorem renderNode_case_default (parent : Option String) {n : DNode}
    (o : DomSerializerOptions) (h : n.type ∉ handledNodeKinds) :
    renderNode parent n o = .ok (none, n) := by
  rw [renderNode.eq_def]
  split
  all_goals first
    | rfl
    | (rename_i hty
       exact absurd (by rw [hty]; decide) h)

mutual

theorem renderTag_again {parent : Option String} {e : DNode}
    {o : DomSerializerOptions} {s : String} {n' : DNode}
    (h : renderTag parent e o = .ok (s, n')) :
    renderTag parent n' o = .ok (s, n') := by
  cases e with
  | mk ty nm attribs dat children =>
    rw [renderTag_mk] at h
    split at h
    · rename_i hcond
      injection h with hp
      injection hp with hs hn
      subst hn
      subst hs
      rw [renderTag_mk, renamedName_idem, deriveOptions_renamed]
      rw [if_pos hcond]
    · rename_i hcond
      split at h
      · exact absurd h (by simp)
      · rename_i cs children' heq
        injection h with hp
        injection hp with hs hn
        subst hn
        subst hs
        have hlen : children'.length = children.length := by
          split at heq
          · exact render_length heq
          · injection heq with h2
            injection h2 with hcs hch
            rw [← hch]
        rw [renderTag_mk, renamedName_idem, deriveOptions_renamed]
        rw [if_neg (fun hc => hcond ⟨by rw [← hlen]; exact hc.1, hc.2⟩)]
        split at heq
        · rename_i hpos
          rw [if_pos (show 0 < children'.length by rw [hlen]; exact hpos)]
          rw [render_again heq]
        · rename_i hneg
          injection heq with h2
          injection h2 with hcs hch
          subst hch
          subst hcs
          rw [if_neg hneg]
termination_by (sizeOf e, 0)

theorem renderNode_again {parent : Option String} {n : DNode}
    {o : DomSerializerOptions} {s : Option String} {n' : DNode}
    (h : renderNode parent n o = .ok (s, n')) :
    renderNode parent n' o = .ok (s, n') := by
  by_cases h1 : n.type = "root"
  · rw [renderNode_case_root parent o h1] at h
    split at h
    · exact absurd h (by simp)
    · rename_i s0 cs heq
      injection h with hp
      injection hp with hs hn
      subst hn
      subst hs
      rw [renderNode_case_root parent o
        (by rw [DNode.withChildren_type]; exact h1)]
      rw [DNode.withChildren_children]
      rw [render_again heq]
      simp only [DNode.withChildren_withChildren]
  by_cases h2 : n.type = "doctype"
  · rw [renderNode_case_doctype parent o h2] at h
    injection h with hp
    injection hp with hs hn
    subst hn
    subst hs
    exact renderNode_case_doctype parent o h2
  by_cases h3 : n.type = "directive"
  · rw [renderNode_case_directive parent o h3] at h
    injection h with hp
    injection hp with hs hn
    subst hn
    subst hs
    exact renderNode_case_directive parent o h3
  by_cases h4 : n.type = "comment"
  · rw [renderNode_case_comment parent o h4] at h
    injection h with hp
    injection hp with hs hn
    subst hn
    subst hs
    exact renderNode_case_comment parent o h4
  by_cases h5 : n.type = "cdata"
  · rw [renderNode_case_cdata parent o h5] at h
    split at h
    · exact absurd h (by simp)
    · rename_i s0 heq
      injection h with hp
      injection hp with hs hn
      subst hn
      subst hs
      rw [renderNode_case_cdata parent o h5, heq]
  by_cases h6 : n.type = "script"
  · rw [renderNode_case_script parent o h6] at h
    split at h
    · exact absurd h (by simp)
    · rename_i s0 n0 heq
      injection h with hp
      injection hp with hs hn
      subst hn
      subst hs
      rw [renderNode_case_script parent o (by rw [renderTag_type heq]; exact h6)]
      rw [renderTag_again heq]
  by_cases h7 : n.type = "style"
  · rw [renderNode_case_style parent o h7] at h
    split at h
    · exact absurd h (by simp)
    · rename_i s0 n0 heq
      injection h with hp
      injection hp with hs hn
      subst hn
      subst hs
      rw [renderNode_case_style parent o (by rw [renderTag_type heq]; exact h7)]
      rw [renderTag_again heq]
  by_cases h8 : n.type = "tag"
  · rw [renderNode_case_tag parent o h8] at h
    split at h
    · exact absurd h (by simp)
    · rename_i s0 n0 heq
      injection h with hp
      injection hp with hs hn
      subst hn
      subst hs
      rw [renderNode_case_tag parent o (by rw [renderTag_type heq]; exact h8)]
      rw [renderTag_again heq]
  by_cases h9 : n.type = "text"
  · rw [renderNode_case_text parent o h9] at h
    injection h with hp
    injection hp with hs hn
    subst hn
    subst hs
    exact renderNode_case_text parent o h9
  have hd : n.type ∉ handledNodeKinds := by
    simp only [handledNodeKinds, List.mem_cons, List.not_mem_nil, or_false]
    intro hc
    rcases hc with hc | hc | hc | hc | hc | hc | hc | hc | hc
    · exact h1 hc
    · exact h2 hc
    · exact h3 hc
    · exact h4 hc
    · exact h5 hc
    · exact h6 hc
    · exact h7 hc
    · exact h8 hc
    · exact h9 hc
  rw [renderNode_case_default parent o hd] at h
  injection h with hp
  injection hp with hs hn
  subst hn
  subst hs
  exact renderNode_case_default parent o hd
termination_by (sizeOf n, 1)
decreasing_by
  all_goals first
    | exact Prod.Lex.left _ _ (DNode.sizeOf_children_lt n)
    | exact Prod.Lex.right _ (by omega)

theorem render_again {parent : Option String} {ns : List DNode}
    {o : DomSerializerOptions} {s : String} {ns' : List DNode}
    (h : render parent ns o = .ok (s, ns')) :
    render parent ns' o = .ok (s, ns') := by
  cases ns with
  | nil =>
    rw [render_nil] at h
    injection h with hp
    injection hp with hs hn
    subst hn
    subst hs
    exact render_nil parent o
  | cons n rest =>
    rw [render_cons] at h
    split at h
    · exact absurd h (by simp)
    · rename_i s1 n1 heq1
      split at h
      · exact absurd h (by simp)
      · rename_i s2 rest2 heq2
        injection h with hp
        injection hp with hs hn
        subst hn
        subst hs
        rw [render_cons]
        rw [renderNode_again heq1]
        rw [render_again heq2]
termination_by (sizeOf ns, 2)

end

theorem truthy_eq_false_iff (b : Option Bool) :
    truthy b = false ↔ b ≠ some true := by
  cases b with
  | none => simp [truthy]
  | some v => cases v <;> simp [truthy]

theorem entityDisabled_iff (o : DomSerializerOptions) :
    entityDisabled o = true ↔
      (o.encodeEntities = some .fls ∨
        (o.encodeEntities = none ∧ o.decodeEntities = some false)) := by
  unfold entityDisabled
  cases he : o.encodeEntities with
  | none => simp
  | some v => cases v <;> simp

theorem empty_append_str (s : String) : "" ++ s = s := by
  cases s
  rfl

theorem string_join_one (s : String) : String.join [s] = s := by
  show "" ++ s = s
  exact empty_append_str s

theorem selectEncode_empty (o : DomSerializerOptions) :
    selectEncode o "" = "" := by
  unfold selectEncode
  split
  · rfl
  · split <;> rfl

theorem ne_append_of_length_pos (a b : String) (hb : 0 < b.length) :
    a ≠ a ++ b := by
  intro h
  have h2 := congrArg String.length h
  rw [String.length_append] at h2
  omega

theorem keyed_ne_bare (k e : String) : k ++ "=\"" ++ e ++ "\"" ≠ k := by
  intro h
  have h2 := congrArg String.length h
  rw [String.length_append, String.length_append, String.length_append] at h2
  have l1 : ("=\"" : String).length = 2 := rfl
  have l2 : ("\"" : String).length = 1 := rfl
  omega

theorem formatOneAttribute_cond_iff (o : DomSerializerOptions) (v : Option String) :
    (¬ truthy o.emptyAttrs = true ∧ o.xmlMode = .off ∧ v.getD "" = "") ↔
      (truthy o.emptyAttrs = false ∧ o.xmlMode = .off ∧ v.getD "" = "") := by
  simp [Bool.not_eq_true]

/-- **C6.**  For every attribute entry: an absent value is treated as the
empty string; the bare key alone is emitted exactly when empty-attribute
expansion is not requested, the current mode is plain HTML and the value is
empty; in every other case the entry is `key="encoded(value)"`; hence in any
XML mode an empty-valued attribute renders as `key=""`.  (`attribKey` is the
emitted key, fixed up through the foreign table only in `"foreign"` mode.) -/
theorem claim6 (o : DomSerializerOptions) (key : String) (v : Option String) :
    (formatOneAttribute o (selectEncode o) (key, none) =
      formatOneAttribute o (selectEncode o) (key, some "")) ∧
    (formatOneAttribute o (selectEncode o) (key, v) = attribKey o key ↔
      truthy o.emptyAttrs = false ∧ o.xmlMode = .off ∧ v.getD "" = "") ∧
    (¬ (truthy o.emptyAttrs = false ∧ o.xmlMode = .off ∧ v.getD "" = "") →
      formatOneAttribute o (selectEncode o) (key, v) =
        attribKey o key ++ "=\"" ++ selectEncode o (v.getD "") ++ "\"") ∧
    (o.xmlMode ≠ .off → v.getD "" = "" →
      formatOneAttribute o (selectEncode o) (key, v) =
        attribKey o key ++ "=\"\"") := by
  refine ⟨rfl, ?_, ?_, ?_⟩
  · by_cases hc : truthy o.emptyAttrs = false ∧ o.xmlMode = .off ∧ v.getD "" = ""
    · simp only [formatOneAttribute]
      rw [if_pos ((formatOneAttribute_cond_iff o v).mpr hc)]
      simp [hc]
    · simp only [formatOneAttribute]
      rw [if_neg (fun hx => hc ((formatOneAttribute_cond_iff o v).mp hx))]
      constructor
      · intro hx
        exact absurd hx (keyed_ne_bare _ _)
      · intro hx
        exact absurd hx hc
  · intro hc
    simp only [formatOneAttribute]
    rw [if_neg (fun hx => hc ((formatOneAttribute_cond_iff o v).mp hx))]
  · intro hx hv
    simp only [formatOneAttribute]
    rw [if_neg (fun hq => hx hq.2.1)]
    rw [hv, selectEncode_empty]
    rw [String.append_empty, String.append_assoc]
    congr 1

/-- Witness for C6 at a concrete input: with default options (plain HTML,
no empty-attribute expansion) an empty-valued attribute is emitted as the
bare key. -/
theorem claim6_witness :
    formatOneAttribute {} (selectEncode {}) ("checked", some "") =
      attribKey {} "checked" :=
  (claim6 {} "checked" (some "")).2.1.mpr (by refine ⟨rfl, rfl, rfl⟩)

/-- **C7.**  The attribute-value encoder is selected once per
`formatAttributes` call (every entry of the call uses the same selected
function): when entity encoding resolves to disabled (`encodeEntities`,
defaulting to `decodeEntities`, equals `false`) it is `replaceQuotes`, which
escapes only the double-quote character; otherwise, in any XML/foreign mode
or when `encodeEntities` is not `"utf8"`, it is full XML-entity encoding;
otherwise it is HTML-attribute-safe escaping. -/
theorem claim7 (o : DomSerializerOptions) (s : String)
    (attrs : List (String × Option String)) (c : Char) :
    (formatAttributes (some attrs) o =
      some (String.intercalate " "
        (attrs.map (formatOneAttribute o (selectEncode o))))) ∧
    ((o.encodeEntities = some .fls ∨
        (o.encodeEntities = none ∧ o.decodeEntities = some false)) →
      selectEncode o s = replaceQuotes s) ∧
    (¬ (o.encodeEntities = some .fls ∨
        (o.encodeEntities = none ∧ o.decodeEntities = some false)) →
      (o.xmlMode ≠ .off ∨ o.encodeEntities ≠ some .utf8) →
      selectEncode o s = encodeXML s) ∧
    (¬ (o.encodeEntities = some .fls ∨
        (o.encodeEntities = none ∧ o.decodeEntities = some false)) →
      o.xmlMode = .off → o.encodeEntities = some .utf8 →
      selectEncode o s = escapeAttribute s) ∧
    (replaceQuotes (String.singleton c) =
      if c = '"' then "&quot;" else String.singleton c) := by
  refine ⟨rfl, ?_, ?_, ?_, ?_⟩
  · intro hd
    unfold selectEncode
    rw [if_pos ((entityDisabled_iff o).mpr hd)]
  · intro hd hx
    unfold selectEncode
    rw [if_neg (fun hq => hd ((entityDisabled_iff o).mp hq))]
    rw [if_pos hx]
  · intro hd hx he
    unfold selectEncode
    rw [if_neg (fun hq => hd ((entityDisabled_iff o).mp hq))]
    rw [if_neg (by simp [hx, he])]
  · show String.join ((String.singleton c).data.map _) = _
    have hdata : (String.singleton c).data = [c] := rfl
    rw [hdata]
    by_cases hq : c = '"'
    · simp only [List.map, if_pos hq]
      exact string_join_one _
    · simp only [List.map, if_neg hq]
      exact string_join_one _

/-- Witness for C7 at concrete inputs: with entity encoding disabled the
selected encoder leaves `<` alone and escapes only `"`; with default options
the selected encoder is full XML-entity encoding. -/
theorem claim7_witness :
    selectEncode { decodeEntities := some false } "<\"" =
        replaceQuotes "<\"" ∧
      selectEncode {} "<" = encodeXML "<" :=
  ⟨(claim7 { decodeEntities := some false } "<\"" [] 'a').2.1
      (Or.inr ⟨rfl, rfl⟩),
    (claim7 {} "<" [] 'a').2.2.1 (by simp) (Or.inr (by simp))⟩

/-- **C8 (amended).**  A text node's raw data passes through unescaped when
entity encoding resolves to disabled, or when the parent's name is in the
unencoded-content set while the mode is plain HTML; otherwise it is encoded
(full XML-entity encoding when the mode is XML/foreign or `encodeEntities`
is not `"utf8"`, HTML-text escaping otherwise).  In particular text inside a
`script` element is emitted byte-for-byte unchanged *when the mode is plain
HTML* (in XML mode it is entity-encoded, see the counterexample). -/
theorem claim8 (parent : Option String) (e : DNode)
    (o : DomSerializerOptions) :
    ((o.encodeEntities = some .fls ∨
        (o.encodeEntities = none ∧ o.decodeEntities = some false)) →
      renderText parent e o = e.data.getD "") ∧
    (o.xmlMode = .off → parentNameIn parent unencodedElements = true →
      renderText parent e o = e.data.getD "") ∧
    (¬ (o.encodeEntities = some .fls ∨
        (o.encodeEntities = none ∧ o.decodeEntities = some false)) →
      ¬ (o.xmlMode = .off ∧ parentNameIn parent unencodedElements = true) →
      renderText parent e o =
        (if o.xmlMode ≠ .off ∨ o.encodeEntities ≠ some .utf8 then
          encodeXML (e.data.getD "")
        else escapeText (e.data.getD ""))) ∧
    (o.xmlMode = .off → parent = some "script" →
      renderText parent e o = e.data.getD "") := by
  have h2 : o.xmlMode = .off → parentNameIn parent unencodedElements = true →
      renderText parent e o = e.data.getD "" := by
    intro hx hp
    unfold renderText
    rw [if_neg (fun hc => hc.2 ⟨hx, hp⟩)]
  refine ⟨?_, h2, ?_, ?_⟩
  · intro hd
    unfold renderText
    rw [if_neg]
    intro hc
    rw [(entityDisabled_iff o).mpr hd] at hc
    simp at hc
  · intro hd hnp
    have hdb : entityDisabled o = false := by
      cases hb : entityDisabled o
      · rfl
      · exact absurd ((entityDisabled_iff o).mp hb) hd
    unfold renderText
    rw [if_pos ⟨hdb, hnp⟩]
  · intro hx hp
    exact h2 hx (by rw [hp]; decide)

/-- Witness for C8 at a concrete input: with default options, the text
`"<br>"` inside a `script` element in plain HTML mode passes through
byte-for-byte. -/
theorem claim8_witness :
    renderText (some "script")
        (DNode.mk "text" "" none (some "\"<br>\"") []) {} = "\"<br>\"" :=
  (claim8 (some "script") (DNode.mk "text" "" none (some "\"<br>\"") [])
    {}).2.2.2 rfl rfl

/-- Counterexample to C8 as stated ("text inside a script element is emitted
byte-for-byte unchanged" in *any* mode): in XML mode the script text
`"<br>"` is entity-encoded, matching the repository's own test `should
encode entities in otherwise special tags`. -/
theorem claim8_counterexample :
    renderText (some "script") (DNode.mk "text" "" none (some "\"<br>\"") [])
        { xmlMode := .on } = "&quot;&lt;br&gt;&quot;" ∧
      "&quot;&lt;br&gt;&quot;" ≠ "\"<br>\"" := by
  constructor
  · rfl
  · decide

/-- **C9 (amended).**  For every CDATA node with at least one child, render
completes without raising and reproduces `"<![CDATA[" + data of the first
child + "]]>"` (whether the first child is a text node is not validated);
a CDATA node with *no* children makes the render throw (the `children[0]`
access yields `undefined` and the `.data` property access is a TypeError),
rather than completing. -/
theorem claim9 (parent : Option String) (ty nm : String)
    (attribs : Option (List (String × Option String))) (dat : Option String)
    (c : DNode) (rest : List DNode) (o : DomSerializerOptions) :
    renderCdata (.mk ty nm attribs dat (c :: rest)) =
        .ok ("<![CDATA[" ++ c.data.getD "undefined" ++ "]]>") ∧
      renderNode parent (.mk "cdata" nm attribs dat (c :: rest)) o =
        .ok (some ("<![CDATA[" ++ c.data.getD "undefined" ++ "]]>"),
          .mk "cdata" nm attribs dat (c :: rest)) := by
  constructor
  · rfl
  · rw [@renderNode_case_cdata parent (.mk "cdata" nm attribs dat (c :: rest)) o rfl]
    rfl

/-- Counterexample to C9 as stated: rendering a CDATA node that lacks its
expected text child does not complete — it raises (the modelled
TypeError). -/
theorem claim9_counterexample :
    render none [DNode.mk "cdata" "" none none []] {} = .error () := by
  rw [render_cons,
    @renderNode_case_cdata none (.mk "cdata" "" none none []) {} rfl]
  rfl

/-- **C2 (amended).**  A node whose runtime kind is outside the closed set
{Root, Doctype, Directive, Comment, CDATA, Script, Style, Tag, Text} is not
handled by any case of the dispatch `switch`: `renderNode` produces no
string for it (JavaScript `undefined`), and `render` appends the coercion
`"undefined"` to the output instead of failing — there is no runtime
defensive assertion (exhaustiveness is enforced only at the type level). -/
theorem claim2 (parent : Option String) (n : DNode)
    (o : DomSerializerOptions) (h : n.type ∉ handledNodeKinds) :
    renderNode parent n o = .ok (none, n) ∧
      render parent [n] o = .ok ("undefined", [n]) := by
  refine ⟨renderNode_case_default parent o h, ?_⟩
  rw [render_cons, renderNode_case_default parent o h, render_nil]
  show Except.ok ("undefined" ++ "", [n]) = _
  rw [String.append_empty]

/-- Witness for C2 at a concrete input: a node of unrecognized kind
`"bogus"` falls through the dispatch returning `undefined`. -/
theorem claim2_witness :
    renderNode none (DNode.mk "bogus" "" none none []) {} =
      .ok (none, DNode.mk "bogus" "" none none []) :=
  (claim2 none (DNode.mk "bogus" "" none none []) {} (by decide)).1

theorem truthy_eq_true_iff (b : Option Bool) :
    truthy b = true ↔ b = some true := by
  cases b with
  | none => simp [truthy]
  | some v => cases v <;> simp [truthy]

theorem selfClosingCondition_eq_true_iff (o : DomSerializerOptions)
    (name : String) :
    selfClosingCondition o name = true ↔
      (if o.xmlMode = .off then
        o.selfClosingTags = some true ∧ name ∈ singleTag
      else o.selfClosingTags ≠ some false) := by
  unfold selfClosingCondition
  cases hx : o.xmlMode
  · simp [truthy_eq_true_iff]
  · simp
  · simp

/-- Counterexample to C2 as stated: a node of unrecognized kind does *not*
make render fail fast — the call succeeds and the node is rendered as the
garbage output `"undefined"`. -/
theorem claim2_counterexample :
    render none [DNode.mk "bogus" "" none none []] {} =
        .ok ("undefined", [DNode.mk "bogus" "" none none []]) ∧
      render none [DNode.mk "bogus" "" none none []] {} ≠ .error () := by
  have hh : render none [DNode.mk "bogus" "" none none []] {} =
      .ok ("undefined", [DNode.mk "bogus" "" none none []]) := by
    rw [render_cons, renderNode_case_default none {} (by decide), render_nil]
    show Except.ok ("undefined" ++ "", _) = _
    rw [String.append_empty]
  exact ⟨hh, by rw [hh]; simp⟩

/-- **C3.**  For a childless element, under the configuration derived for it
(`deriveOptions`) and its fixed-up name (`renamedName`): in XML or foreign
mode it self-closes with `"/>"` and no preceding space unless
`selfClosingTags` is explicitly `false` (in which case `"></name>"` is
emitted); in plain HTML mode it self-closes, with a single space before
`"/>"`, exactly when `selfClosingTags` is truthy and the name is in the
void-element set, and otherwise does not self-close. -/
theorem claim3 (parent : Option String) (ty nm : String)
    (attribs : Option (List (String × Option String))) (dat : Option String)
    (o0 : DomSerializerOptions) :
    ((deriveOptions parent nm o0).xmlMode ≠ .off →
      (deriveOptions parent nm o0).selfClosingTags ≠ some false →
      renderTag parent (.mk ty nm attribs dat []) o0 =
        .ok (openTag (renamedName o0 nm) attribs (deriveOptions parent nm o0)
            ++ "/>",
          .mk ty (renamedName o0 nm) attribs dat [])) ∧
    ((deriveOptions parent nm o0).xmlMode ≠ .off →
      (deriveOptions parent nm o0).selfClosingTags = some false →
      renderTag parent (.mk ty nm attribs dat []) o0 =
        .ok (openTag (renamedName o0 nm) attribs (deriveOptions parent nm o0)
            ++ ">" ++ "</" ++ renamedName o0 nm ++ ">",
          .mk ty (renamedName o0 nm) attribs dat [])) ∧
    ((deriveOptions parent nm o0).xmlMode = .off →
      (deriveOptions parent nm o0).selfClosingTags = some true →
      renamedName o0 nm ∈ singleTag →
      renderTag parent (.mk ty nm attribs dat []) o0 =
        .ok (openTag (renamedName o0 nm) attribs (deriveOptions parent nm o0)
            ++ " />",
          .mk ty (renamedName o0 nm) attribs dat [])) ∧
    ((deriveOptions parent nm o0).xmlMode = .off →
      ¬ ((deriveOptions parent nm o0).selfClosingTags = some true ∧
          renamedName o0 nm ∈ singleTag) →
      renamedName o0 nm ∈ singleTag →
      renderTag parent (.mk ty nm attribs dat []) o0 =
        .ok (openTag (renamedName o0 nm) attribs (deriveOptions parent nm o0)
            ++ ">",
          .mk ty (renamedName o0 nm) attribs dat [])) ∧
    ((deriveOptions parent nm o0).xmlMode = .off →
      ¬ ((deriveOptions parent nm o0).selfClosingTags = some true ∧
          renamedName o0 nm ∈ singleTag) →
      renamedName o0 nm ∉ singleTag →
      renderTag parent (.mk ty nm attribs dat []) o0 =
        .ok (openTag (renamedName o0 nm) attribs (deriveOptions parent nm o0)
            ++ ">" ++ "</" ++ renamedName o0 nm ++ ">",
          .mk ty (renamedName o0 nm) attribs dat [])) := by
  refine ⟨?_, ?_, ?_, ?_, ?_⟩
  · intro hx hsc
    rw [renderTag_mk]
    rw [if_pos ⟨rfl, (selfClosingCondition_eq_true_iff _ _).mpr
      (by rw [if_neg hx]; exact hsc)⟩]
    rw [if_neg hx]
  · intro hx hsc
    rw [renderTag_mk]
    rw [if_neg (fun hc => by
      have hq := (selfClosingCondition_eq_true_iff _ _).mp hc.2
      rw [if_neg hx] at hq
      exact hq hsc)]
    rw [if_neg (show ¬ 0 < List.length ([] : List DNode) by simp)]
    show Except.ok
        (if (deriveOptions parent nm o0).xmlMode ≠ .off ∨
            renamedName o0 nm ∉ singleTag then _ else _, _) = _
    rw [if_pos (Or.inl hx)]
    rw [String.append_empty]
  · intro hx hsc hmem
    rw [renderTag_mk]
    rw [if_pos ⟨rfl, (selfClosingCondition_eq_true_iff _ _).mpr
      (by rw [if_pos hx]; exact ⟨hsc, hmem⟩)⟩]
    rw [if_pos hx, String.append_assoc]
    congr 1
  · intro hx hnsc hm
    rw [renderTag_mk]
    rw [if_neg (fun hc => by
      have hq := (selfClosingCondition_eq_true_iff _ _).mp hc.2
      rw [if_pos hx] at hq
      exact hnsc hq)]
    rw [if_neg (show ¬ 0 < List.length ([] : List DNode) by simp)]
    show Except.ok
        (if (deriveOptions parent nm o0).xmlMode ≠ .off ∨
            renamedName o0 nm ∉ singleTag then _ else _, _) = _
    rw [if_neg (by simp [hx, hm]), String.append_empty]
  · intro hx hnsc hm
    rw [renderTag_mk]
    rw [if_neg (fun hc => by
      have hq := (selfClosingCondition_eq_true_iff _ _).mp hc.2
      rw [if_pos hx] at hq
      exact hnsc hq)]
    rw [if_neg (show ¬ 0 < List.length ([] : List DNode) by simp)]
    show Except.ok
        (if (deriveOptions parent nm o0).xmlMode ≠ .off ∨
            renamedName o0 nm ∉ singleTag then _ else _, _) = _
    rw [if_pos (Or.inr hm), String.append_empty]

/-- Witness for C3 at concrete inputs: a childless `br` in plain HTML mode
with self-closing tags requested renders `<br />` with the space; a
childless `foo` in XML mode renders `<foo/>` without it. -/
theorem claim3_witness :
    renderTag none (.mk "tag" "br" none none [])
        { selfClosingTags := some true } =
      .ok ("<br />", .mk "tag" "br" none none []) ∧
    renderTag none (.mk "tag" "foo" none none []) { xmlMode := .on } =
      .ok ("<foo/>", .mk "tag" "foo" none none []) := by
  constructor
  · exact (claim3 none "tag" "br" none none
      { selfClosingTags := some true }).2.2.1 rfl rfl (by decide)
  · exact (claim3 none "tag" "foo" none none { xmlMode := .on }).1
      (by decide) (by decide)

theorem open_close_flat (t n : String) :
    t ++ ">" ++ "</" ++ n ++ ">" = t ++ "></" ++ n ++ ">" := by
  have h : (t ++ ">") ++ "</" = t ++ "></" := by
    rw [String.append_assoc]
    congr 1
  rw [h]

/-- **C4.**  For every element that does not self-close: the output is the
open tag, `">"`, the renders of the children in order under the derived
configuration, then the closing tag `"</" + name + ">"` — except that in
plain HTML mode a void-element name never receives a closing tag, even when
the element has children.  In particular a childless, attribute-less,
non-void element in (derived) plain HTML mode with self-closing tags not
requested renders as `"<name></name>"`. -/
theorem claim4 (parent : Option String) (ty nm : String)
    (attribs : Option (List (String × Option String))) (dat : Option String)
    (children : List DNode) (o0 : DomSerializerOptions)
    (cs : String) (children' : List DNode) :
    (0 < children.length →
      render (some (renamedName o0 nm)) children (deriveOptions parent nm o0) =
        .ok (cs, children') →
      ((deriveOptions parent nm o0).xmlMode ≠ .off ∨
          renamedName o0 nm ∉ singleTag →
        renderTag parent (.mk ty nm attribs dat children) o0 =
          .ok (openTag (renamedName o0 nm) attribs (deriveOptions parent nm o0)
              ++ ">" ++ cs ++ "</" ++ renamedName o0 nm ++ ">",
            .mk ty (renamedName o0 nm) attribs dat children')) ∧
      ((deriveOptions parent nm o0).xmlMode = .off ∧
          renamedName o0 nm ∈ singleTag →
        renderTag parent (.mk ty nm attribs dat children) o0 =
          .ok (openTag (renamedName o0 nm) attribs (deriveOptions parent nm o0)
              ++ ">" ++ cs,
            .mk ty (renamedName o0 nm) attribs dat children'))) ∧
    (children = [] → (deriveOptions parent nm o0).xmlMode = .off →
      renamedName o0 nm ∉ singleTag →
      truthy (deriveOptions parent nm o0).selfClosingTags = false →
      attribs = none →
      renderTag parent (.mk ty nm attribs dat children) o0 =
        .ok ("<" ++ renamedName o0 nm ++ "></" ++ renamedName o0 nm ++ ">",
          .mk ty (renamedName o0 nm) attribs dat [])) := by
  constructor
  · intro hpos heq
    have hlen : ¬ (children.length = 0 ∧
        selfClosingCondition (deriveOptions parent nm o0)
          (renamedName o0 nm) = true) := fun hc => by omega
    constructor
    · intro hcl
      rw [renderTag_mk, if_neg hlen, if_pos hpos, heq]
      show Except.ok
          (if (deriveOptions parent nm o0).xmlMode ≠ .off ∨
              renamedName o0 nm ∉ singleTag then _ else _, _) = _
      rw [if_pos hcl]
    · intro hcl
      rw [renderTag_mk, if_neg hlen, if_pos hpos, heq]
      show Except.ok
          (if (deriveOptions parent nm o0).xmlMode ≠ .off ∨
              renamedName o0 nm ∉ singleTag then _ else _, _) = _
      rw [if_neg (by simp [hcl.1, hcl.2])]
  · intro hch hx hm hsc hattr
    subst hch
    subst hattr
    rw [renderTag_mk]
    rw [if_neg (fun hc => by
      have hq := (selfClosingCondition_eq_true_iff _ _).mp hc.2
      rw [if_pos hx] at hq
      rw [truthy_eq_false_iff] at hsc
      exact hsc hq.1)]
    rw [if_neg (show ¬ 0 < List.length ([] : List DNode) by simp)]
    show Except.ok
        (if (deriveOptions parent nm o0).xmlMode ≠ .off ∨
            renamedName o0 nm ∉ singleTag then _ else _, _) = _
    rw [if_pos (Or.inr hm), String.append_empty]
    show Except.ok
        ("<" ++ renamedName o0 nm ++ ">" ++ "</" ++ renamedName o0 nm ++ ">",
          _) = _
    rw [open_close_flat]

/-- Witness for C4 at concrete inputs: `<div>` with a text child renders
with an explicit closing tag; a childless `<div>` renders as
`<div></div>`. -/
theorem claim4_witness :
    renderTag none
        (.mk "tag" "div" none none [.mk "text" "" none (some "hi") []]) {} =
      .ok ("<div>" ++ "hi" ++ "</" ++ "div" ++ ">",
        .mk "tag" "div" none none [.mk "text" "" none (some "hi") []]) ∧
    renderTag none (.mk "tag" "div" none none []) {} =
      .ok ("<div></div>", .mk "tag" "div" none none []) := by
  constructor
  · have h := (claim4 none "tag" "div" none none
      [DNode.mk "text" "" none (some "hi") []] {} "hi"
      [DNode.mk "text" "" none (some "hi") []]).1 (by decide)
      (by show render (some "div") [DNode.mk "text" "" none (some "hi") []] {}
            = Except.ok ("hi", [DNode.mk "text" "" none (some "hi") []])
          rw [render_cons,
            @renderNode_case_text (some "div")
              (DNode.mk "text" "" none (some "hi") []) {} rfl, render_nil]
          show Except.ok ("hi" ++ "", _) = _
          rw [String.append_empty])
    exact h.1 (Or.inr (by decide))
  · exact (claim4 none "tag" "div" none none [] {} "" []).2 rfl rfl
      (by decide) rfl rfl

/-- **C5 (amended).**  In foreign mode, when the parent's name is an
integration point, the derived configuration for the element has foreign
mode cleared (plain HTML) — *provided the element's own (fixed-up) name is
not `svg`/`math`*; when it is `svg`/`math`, the clearing is immediately
re-entered for that very element.  From a plain-HTML configuration, the
derived configuration is foreign exactly for the names `svg` and `math` —
so within a cleared subtree foreign mode is re-entered exactly at
`svg`/`math` descendants. -/
theorem claim5 (parent : Option String) (p nm : String)
    (o : DomSerializerOptions) :
    (o.xmlMode = .foreign → parent = some p →
      p ∈ foreignModeIntegrationPoints →
      renameElement nm ∉ foreignElements →
      (deriveOptions parent nm o).xmlMode = .off) ∧
    (o.xmlMode = .off →
      ((deriveOptions parent nm o).xmlMode = .foreign ↔
        nm ∈ foreignElements)) ∧
    (o.xmlMode = .foreign → parent = some p →
      p ∈ foreignModeIntegrationPoints →
      renameElement nm ∈ foreignElements →
      (deriveOptions parent nm o).xmlMode = .foreign) := by
  refine ⟨?_, ?_, ?_⟩
  · intro hx hp hmem hnm
    subst hp
    have hr : renamedName o nm = renameElement nm := by
      unfold renamedName
      rw [if_pos hx]
    have he : exitForeignAtIntegrationPoint (some p) o =
        { o with xmlMode := .off } := by
      unfold exitForeignAtIntegrationPoint
      rw [if_pos ⟨hx, by simp [parentNameIn, hmem]⟩]
    unfold deriveOptions
    rw [he, hr]
    unfold enterForeignAtForeignElement
    rw [if_neg (fun hc => hnm hc.2)]
  · intro hx
    have hr : renamedName o nm = nm := by
      unfold renamedName
      rw [if_neg (by rw [hx]; simp)]
    have he : exitForeignAtIntegrationPoint parent o = o := by
      unfold exitForeignAtIntegrationPoint
      rw [if_neg (fun hc => by rw [hx] at hc; exact absurd hc.1 (by simp))]
    unfold deriveOptions
    rw [he, hr]
    unfold enterForeignAtForeignElement
    by_cases hm : nm ∈ foreignElements
    · rw [if_pos ⟨hx, hm⟩]
      simp [hm]
    · rw [if_neg (fun hc => hm hc.2)]
      rw [hx]
      simp [hm]
  · intro hx hp hmem hnm
    subst hp
    have hr : renamedName o nm = renameElement nm := by
      unfold renamedName
      rw [if_pos hx]
    have he : exitForeignAtIntegrationPoint (some p) o =
        { o with xmlMode := .off } := by
      unfold exitForeignAtIntegrationPoint
      rw [if_pos ⟨hx, by simp [parentNameIn, hmem]⟩]
    unfold deriveOptions
    rw [he, hr]
    unfold enterForeignAtForeignElement
    rw [if_pos ⟨rfl, hnm⟩]

/-- Witness for C5 at concrete inputs: under foreign mode inside a `desc`
integration point, a `div` child's derived configuration is plain HTML,
while from plain HTML an `svg` element derives a foreign configuration. -/
theorem claim5_witness :
    (deriveOptions (some "desc") "div" { xmlMode := .foreign }).xmlMode =
        .off ∧
      (deriveOptions none "svg" {}).xmlMode = .foreign := by
  constructor
  · exact (claim5 (some "desc") "desc" "div" { xmlMode := .foreign }).1
      rfl rfl (by decide) (by decide)
  · exact ((claim5 none "p" "svg" {}).2.1 rfl).mpr (by decide)

/-- Counterexample to C5 as stated: for an element named `svg` whose parent
`desc` is an integration point, the derived configuration does *not* have
foreign mode cleared — the element itself re-enters foreign mode, and it is
serialized with the foreign-mode `"/>"` (no preceding space), not as the
plain-HTML `<svg></svg>`. -/
theorem claim5_counterexample :
    (deriveOptions (some "desc") "svg" { xmlMode := .foreign }).xmlMode =
        .foreign ∧
      renderTag (some "desc") (.mk "tag" "svg" none none [])
          { xmlMode := .foreign } =
        .ok ("<svg/>", .mk "tag" "svg" none none []) := by
  constructor
  · rfl
  · rw [renderTag_mk]
    rw [if_pos ⟨rfl, by decide⟩]
    rw [if_neg (by decide)]
    rfl

/-- **C1.**  Configuration-override scoping: `render` passes its inherited
configuration unchanged to every sibling (whatever a node's render did, the
following siblings are rendered under the very same `o`), and `renderTag`
renders its entire child list under the derived configuration
`deriveOptions parent nm o` — the override is created as a fresh value
(object spread in the source), so the caller's options value is never
modified and the override's scope is exactly the subtree. -/
theorem claim1 (parent : Option String) (n : DNode) (rest : List DNode)
    (o : DomSerializerOptions) (s : Option String) (n' : DNode)
    (s2 : String) (rest' : List DNode) (ty nm : String)
    (attribs : Option (List (String × Option String))) (dat : Option String)
    (children : List DNode) (cs : String) (children' : List DNode) :
    (renderNode parent n o = .ok (s, n') →
      render parent rest o = .ok (s2, rest') →
      render parent (n :: rest) o =
        .ok (s.getD "undefined" ++ s2, n' :: rest')) ∧
    (0 < children.length →
      render (some (renamedName o nm)) children (deriveOptions parent nm o) =
        .ok (cs, children') →
      ((deriveOptions parent nm o).xmlMode ≠ .off ∨
          renamedName o nm ∉ singleTag →
        renderTag parent (.mk ty nm attribs dat children) o =
          .ok (openTag (renamedName o nm) attribs (deriveOptions parent nm o)
              ++ ">" ++ cs ++ "</" ++ renamedName o nm ++ ">",
            .mk ty (renamedName o nm) attribs dat children')) ∧
      ((deriveOptions parent nm o).xmlMode = .off ∧
          renamedName o nm ∈ singleTag →
        renderTag parent (.mk ty nm attribs dat children) o =
          .ok (openTag (renamedName o nm) attribs (deriveOptions parent nm o)
              ++ ">" ++ cs,
            .mk ty (renamedName o nm) attribs dat children'))) := by
  constructor
  · intro h1 h2
    rw [render_cons, h1, h2]
  · intro hpos heq
    have hlen : ¬ (children.length = 0 ∧
        selfClosingCondition (deriveOptions parent nm o)
          (renamedName o nm) = true) := fun hc => by omega
    constructor
    · intro hcl
      rw [renderTag_mk, if_neg hlen, if_pos hpos, heq]
      show Except.ok
          (if (deriveOptions parent nm o).xmlMode ≠ .off ∨
              renamedName o nm ∉ singleTag then _ else _, _) = _
      rw [if_pos hcl]
    · intro hcl
      rw [renderTag_mk, if_neg hlen, if_pos hpos, heq]
      show Except.ok
          (if (deriveOptions parent nm o).xmlMode ≠ .off ∨
              renamedName o nm ∉ singleTag then _ else _, _) = _
      rw [if_neg (by simp [hcl.1, hcl.2])]

/-- Witness for C1 at concrete inputs: two sibling comments concatenate
under the same configuration, and an `svg` element's text child is rendered
under the derived (foreign) configuration. -/
theorem claim1_witness :
    render none [DNode.mk "comment" "" none (some "a") [],
        DNode.mk "comment" "" none (some "b") []] {} =
      .ok ("<!--a--><!--b-->",
        [DNode.mk "comment" "" none (some "a") [],
          DNode.mk "comment" "" none (some "b") []]) ∧
    renderTag none
        (.mk "tag" "svg" none none [DNode.mk "text" "" none (some "hi") []])
        {} =
      .ok ("<svg>" ++ "hi" ++ "</" ++ "svg" ++ ">",
        .mk "tag" "svg" none none
          [DNode.mk "text" "" none (some "hi") []]) := by
  constructor
  · exact (claim1 none (DNode.mk "comment" "" none (some "a") [])
      [DNode.mk "comment" "" none (some "b") []] {}
      (some "<!--a-->") (DNode.mk "comment" "" none (some "a") [])
      "<!--b-->" [DNode.mk "comment" "" none (some "b") []]
      "tag" "x" none none [] "" []).1
      (@renderNode_case_comment none
        (DNode.mk "comment" "" none (some "a") []) {} rfl)
      (by rw [render_cons,
            @renderNode_case_comment none
              (DNode.mk "comment" "" none (some "b") []) {} rfl, render_nil]
          show Except.ok ("<!--b-->" ++ "", _) = _
          rw [String.append_empty])
  · exact ((claim1 none (DNode.mk "comment" "" none (some "a") []) [] {}
      none (DNode.mk "comment" "" none (some "a") []) "" []
      "tag" "svg" none none [DNode.mk "text" "" none (some "hi") []]
      "hi" [DNode.mk "text" "" none (some "hi") []]).2
      (by decide)
      (by show render (some "svg") [DNode.mk "text" "" none (some "hi") []]
            { xmlMode := .foreign }
            = Except.ok ("hi", [DNode.mk "text" "" none (some "hi") []])
          rw [render_cons,
            @renderNode_case_text (some "svg")
              (DNode.mk "text" "" none (some "hi") [])
              { xmlMode := .foreign } rfl, render_nil]
          show Except.ok ("hi" ++ "", _) = _
          rw [String.append_empty])).1
      (Or.inl (by decide))

/-- **C10.**  Rendering's only effect on the input tree is rewriting `name`
fields (the returned tree agrees with the input under `stripNames`, which
erases exactly the `name` fields), and the effect is idempotent: rendering
the returned (possibly name-rewritten) tree again with the same options
performs no further change and returns the identical output string. -/
theorem claim10 (parent : Option String) (n : DNode)
    (o : DomSerializerOptions) (s : Option String) (n' : DNode)
    (ns : List DNode) (s2 : String) (ns' : List DNode) :
    (renderNode parent n o = .ok (s, n') →
      stripNames n' = stripNames n ∧ renderNode parent n' o = .ok (s, n')) ∧
    (render parent ns o = .ok (s2, ns') →
      stripNamesList ns' = stripNamesList ns ∧
        render parent ns' o = .ok (s2, ns')) :=
  ⟨fun h => ⟨renderNode_names h, renderNode_again h⟩,
    fun h => ⟨render_names h, render_again h⟩⟩

/-- Witness for C10 at a concrete input: in an `svg` subtree the child
`radialgradient` is renamed to `radialGradient`; the renamed tree agrees
with the original under `stripNames`, and rendering it again returns the
same string and the same tree. -/
theorem claim10_witness :
    stripNames (DNode.mk "tag" "svg" none none
        [DNode.mk "tag" "radialGradient" none none []]) =
      stripNames (DNode.mk "tag" "svg" none none
        [DNode.mk "tag" "radialgradient" none none []]) ∧
    renderNode none (DNode.mk "tag" "svg" none none
        [DNode.mk "tag" "radialGradient" none none []]) {} =
      .ok (some "<svg><radialGradient/></svg>",
        DNode.mk "tag" "svg" none none
          [DNode.mk "tag" "radialGradient" none none []]) :=
  (claim10 none
    (DNode.mk "tag" "svg" none none
      [DNode.mk "tag" "radialgradient" none none []]) {}
    (some "<svg><radialGradient/></svg>")
    (DNode.mk "tag" "svg" none none
      [DNode.mk "tag" "radialGradient" none none []]) [] "" []).1
    (by simp [render, renderNode, renderTag, openTag, formatAttributes,
      deriveOptions, renamedName, selfClosingCondition, truthy, singleTag,
      foreignElements, foreignModeIntegrationPoints, parentNameIn,
      exitForeignAtIntegrationPoint, enterForeignAtForeignElement,
      DNode.type, DNode.name, DNode.attribs, DNode.data, DNode.children,
      renameElement, tableLookup, elementNames, String.intercalate,
      List.intercalate, List.intersperse, String.join])

end DomSerializer
